import Mathlib

/-!
Verification development for the `gcfg` configuration package of the
`ichunt2019/gf` repository.

The package under study (file `os/gcfg/gcfg.go` of the repository) is a
configuration resolution and caching layer.  Its state is a `Config`
struct holding a default file name, an ordered search path array, a map
from file names to parsed documents, and a violence-check flag.  The
operations embedded here are `New`, `Config.SetPath`, `Config.AddPath`,
`Config.getSearchPaths`, `Config.FilePath` and `Config.getJson`.

External collaborators of the package (the `gres` resource bundle,
`gfile`, `gspath`, `gcmd`, `gjson`, `gfsnotify`, the inline-content
registry `GetContent`, and the concurrent containers `garray`/`gmap`)
are not part of the provided sources; they are modelled abstractly as an
environment of pure functions, each documented at its interface boundary
as the specification describes it.  Logging (`glog`/`intlog`) is not
modelled: it does not affect any value or state of the package.
-/

/-- Document model: the result of a successful parse (a `*gjson.Json`
object).  Its internal structure is irrelevant here; `raw` stands for
the parsed payload and `violenceCheck` for the flag the package sets on
it via `SetViolenceCheck` after parsing. -/
structure Json where
  raw : String
  violenceCheck : Bool
deriving Repr, DecidableEq

/-- Modelled from the spec: a hit of the resource overlay (`gres.File`),
exposing its name, whether it is a directory, and its decoded content. -/
structure ResFile where
  fname : String
  isDir : Bool
  content : String
deriving Repr, DecidableEq

/-- Environment of external collaborators, modelled from the spec at
their interface boundary.  Go functions that signal absence with an
empty string keep that convention here. -/
structure Env where
  /-- Modelled from the spec: `gres.Get(path)`, the resource overlay lookup. -/
  resGet : String → Option ResFile
  /-- Modelled from the spec: `gres.IsEmpty()`, whether the overlay is empty. -/
  resIsEmpty : Bool
  /-- Modelled from the spec: `gfile.RealPath(path)`, the absolute path of an
  existing entry, or the empty string when the path does not exist. -/
  realPath : String → String
  /-- Modelled from the spec: `gfile.IsDir(path)`. -/
  isDirFs : String → Bool
  /-- Modelled from the spec: `gspath.Search(dir, name)`, the found path under
  the directory, or the empty string on a miss. -/
  spathSearch : String → String → String
  /-- Modelled from the spec: `gfile.GetContents(path)`. -/
  getContents : String → String
  /-- Modelled from the spec: `gfile.Exists(path)`. -/
  existsFs : String → Bool
  /-- Modelled from the spec: `gfile.MainPkgPath()`; empty when unavailable. -/
  mainPkgPath : String
  /-- Modelled from the spec: `gfile.SelfDir()`, the binary's directory. -/
  selfDir : String
  /-- Modelled from the spec: `gfile.Pwd()`, the working directory. -/
  pwd : String
  /-- Modelled from the spec: `GetContent(name)`, the inline content registry
  of the package; empty string when no inline content is registered. -/
  inlineContent : String → String
  /-- Modelled from the spec: `gjson.LoadContentType(dataType, content)`, the
  format parser selected by an extension; `none` is a parse failure. -/
  loadContentType : String → String → Option Json
  /-- Modelled from the spec: `gjson.LoadContent(content)`, the generic
  content-sniffing parser; `none` is a parse failure. -/
  loadContent : String → Option Json
  /-- Modelled from the spec: whether `gfsnotify.Add` on this path succeeds. -/
  watchOk : String → Bool
  /-- Modelled from the spec: the `gf.gcfg.file` command/environment option. -/
  cmdOptFile : String
  /-- Modelled from the spec: the `gf.gcfg.path` command/environment option. -/
  cmdOptPath : String

/-- Modelled from the spec: `gres.Contains(path)` holds exactly when the
overlay lookup finds the path. -/
def Env.resContains (env : Env) (path : String) : Bool :=
  (env.resGet path).isSome

/-- The default configuration file name (`DefaultConfigFile`). -/
def DefaultConfigFile : String := "config.toml"

/-- The supported format extensions (`supportedFileTypes`). -/
def supportedFileTypes : List String := ["toml", "yaml", "json", "ini", "xml"]

/-- The overlay probe prefixes (`resourceTryFiles`). -/
def resourceTryFiles : List String := ["", "/", "config/", "config", "/config", "/config/"]

/-- Modelled from the spec: `gfile.Separator` on the target platform. -/
def separator : String := "/"

/-- A registered filesystem watch: the watched path, the cache key its
callback removes (the callback in the source is `c.jsonMap.Remove(name)`),
and whether `gfsnotify.Add` succeeded. -/
structure Watch where
  path : String
  evictKey : String
  registered : Bool
deriving Repr, DecidableEq

/-- The `Config` struct of the package: default file name, search path
array (`garray.StrArray`), parsed-document map (`gmap.StrAnyMap`, as an
association list) and the violence-check flag. -/
structure Config where
  defaultName : String
  searchPaths : List String
  jsonMap : List (String × Json)
  violenceCheck : Bool
deriving Repr, DecidableEq

/-- An empty-string test packaged as an option, used where the Go code
tests a returned path against the empty string. -/
def strOpt (s : String) : Option String :=
  if s = "" then none else some s

/-- Trailing-separator trimming, `gstr.TrimRight(s, "\x5c/")`: removes
trailing slash and backslash characters. -/
def trimRightSlashes (s : String) : String :=
  String.mk ((s.data.reverse.dropWhile fun ch => ch == '/' || ch == '\\').reverse)

/-- The shared resolution step of `SetPath` and `AddPath`: the resource
overlay is consulted first, then the absolute path, then a relative
lookup against each current search path; the second component is the
directory check of the resolved path (false when nothing resolved). -/
def Config.resolveDirPath (c : Config) (env : Env) (path : String) : String × Bool :=
  match env.resGet path with
  | some f => (path, f.isDir)
  | none =>
    let rp := env.realPath path
    let rp := if rp = "" then
        (c.searchPaths.findSome? (fun v => strOpt (env.spathSearch v path))).getD ""
      else rp
    if rp = "" then ("", false) else (rp, env.isDirFs rp)

/-- The error outcomes of `SetPath`/`AddPath` (the diagnostic strings of
the Go errors are irrelevant; only which error arises matters). -/
inductive ConfigError where
  | pathNotFound (path : String)
  | notADirectory (path : String)
deriving Repr, DecidableEq

/-- `Config.SetPath`: resolve the path; fail (state unchanged) when it
does not resolve or is not a directory; return success without touching
anything when the resolved directory is already present; otherwise clear
the document cache, clear the search paths and append the single
resolved directory. -/
def Config.SetPath (c : Config) (env : Env) (path : String) : Option ConfigError × Config :=
  let realPath := (c.resolveDirPath env path).1
  let isDir := (c.resolveDirPath env path).2
  if realPath = "" then (some (ConfigError.pathNotFound path), c)
  else if isDir = false then (some (ConfigError.notADirectory path), c)
  else if realPath ∈ c.searchPaths then (none, c)
  else (none, { c with jsonMap := [], searchPaths := [realPath] })

/-- `Config.AddPath`: resolve the path; fail (state unchanged) when it
does not resolve or is not a directory; no-op on a repeated path;
otherwise append the resolved directory to the search paths. -/
def Config.AddPath (c : Config) (env : Env) (path : String) : Option ConfigError × Config :=
  let realPath := (c.resolveDirPath env path).1
  let isDir := (c.resolveDirPath env path).2
  if realPath = "" then (some (ConfigError.pathNotFound path), c)
  else if isDir = false then (some (ConfigError.notADirectory path), c)
  else if realPath ∈ c.searchPaths then (none, c)
  else (none, { c with searchPaths := c.searchPaths ++ [realPath] })

/-- `Config.getSearchPaths`: the effective directory list used by
resolution; when `gfile.MainPkgPath()` is non-empty and not already in
the search path array it is prepended in front of everything. -/
def Config.getSearchPaths (c : Config) (env : Env) : List String :=
  if env.mainPkgPath ≠ "" ∧ env.mainPkgPath ∉ c.searchPaths
  then env.mainPkgPath :: c.searchPaths
  else c.searchPaths

/-- `Config.FilePath`: resolution of a logical file name.  With a
non-empty overlay, the bare probes (prefixes concatenated with the name)
run first, then the probes with each effective search directory
prepended; on overlay miss the real filesystem is searched per directory
(trailing separators trimmed), directly and under a `config`
subdirectory; a miss everywhere yields the empty string. -/
def Config.FilePath (c : Config) (env : Env) (name : String) : String :=
  let searchPaths := c.getSearchPaths env
  let resPath : Option String :=
    if env.resIsEmpty then none
    else
      match resourceTryFiles.findSome? (fun v => (env.resGet (v ++ name)).map ResFile.fname) with
      | some p => some p
      | none =>
        searchPaths.findSome? (fun dir =>
          resourceTryFiles.findSome? (fun v => (env.resGet (dir ++ v ++ name)).map ResFile.fname))
  match resPath with
  | some p => p
  | none =>
    (searchPaths.findSome? (fun dir =>
      let dir2 := trimRightSlashes dir
      match strOpt (env.spathSearch dir2 name) with
      | some p => some p
      | none => strOpt (env.spathSearch (dir2 ++ separator ++ "config") name))).getD ""

/-- The fresh `Config` value built at the start of `New`: the default
name comes from the explicit argument, else the `gf.gcfg.file` option,
else `DefaultConfigFile`; the empty string stands for an absent variadic
argument. -/
def newBase (env : Env) (file : String) : Config :=
  let name := if file ≠ "" then file
    else if env.cmdOptFile ≠ "" then env.cmdOptFile
    else DefaultConfigFile
  { defaultName := name, searchPaths := [], jsonMap := [], violenceCheck := false }

/-- `New`: when the `gf.gcfg.path` option is set and exists, `SetPath`
runs with its error discarded; when it is set but does not exist only an
error is logged; only when it is not set at all do the default discovery
steps run (main package dir and binary dir when existing, then the
working directory unconditionally). -/
def New (env : Env) (file : String) : Config :=
  let c := newBase env file
  if env.cmdOptPath ≠ "" then
    if env.existsFs env.cmdOptPath then (c.SetPath env env.cmdOptPath).2 else c
  else
    let c1 := if env.mainPkgPath ≠ "" ∧ env.existsFs env.mainPkgPath
      then (c.AddPath env env.mainPkgPath).2 else c
    let c2 := if env.selfDir ≠ "" ∧ env.existsFs env.selfDir
      then (c1.AddPath env env.selfDir).2 else c1
    (c2.AddPath env env.pwd).2

/-- Modelled from the spec: `gfile.ExtName(name)`, the extension of the
file name without the leading dot, empty when the name has none. -/
def extName (s : String) : String :=
  let afterDot := s.data.reverse.takeWhile fun ch => ch != '.'
  if afterDot.length = s.data.length then "" else String.mk afterDot.reverse

/-- Modelled from the spec: `gjson.IsValidDataType` (the `gjson` package
is not among the provided sources); per the spec the fixed supported set
of format types is TOML, YAML, JSON, INI and XML. -/
def isValidDataType (dataType : String) : Bool :=
  decide (dataType ∈ supportedFileTypes)

/-- The parsing dispatch inside `getJson`: the extension of the name
selects `LoadContentType` when it is a valid data type and the content
does not come from the inline registry; otherwise the generic
`LoadContent` runs. -/
def parseStep (env : Env) (name content : String) (isFromConfigContent : Bool) : Option Json :=
  let dataType := extName name
  if isValidDataType dataType && !isFromConfigContent
  then env.loadContentType dataType content
  else env.loadContent content

/-- The compute step of `getJson` (the closure passed to
`GetOrSetFuncLock`): inline content wins and is parsed generically; else
the name is resolved, content is read from the overlay or the disk, the
dispatched parser runs, the violence-check flag is set on the document,
and for a real (non-overlay) file a watch is registered whose callback
removes exactly this name from the cache; every failure yields `none`
with no watch. -/
def Config.getJsonCompute (c : Config) (env : Env) (name : String) : Option Json × List Watch :=
  let inline := env.inlineContent name
  if inline = "" then
    let fp := c.FilePath env name
    if fp = "" then (none, [])
    else
      let content :=
        match env.resGet fp with
        | some f => f.content
        | none => env.getContents fp
      match parseStep env name content false with
      | some j =>
        let j2 : Json := { j with violenceCheck := c.violenceCheck }
        if env.resContains fp then (some j2, [])
        else (some j2, [⟨fp, name, env.watchOk fp⟩])
      | none => (none, [])
  else
    match parseStep env name inline true with
    | some j => (some { j with violenceCheck := c.violenceCheck }, [])
    | none => (none, [])

/-- Modelled from the spec: `gmap.StrAnyMap.GetOrSetFuncLock` (the
`gmap` package is not among the provided sources).  A cached value is
returned as is; otherwise the compute function runs and its result is
stored only when it is non-nil — absence is not cached. -/
def getOrSetFuncLock (m : List (String × Json)) (key : String)
    (f : Unit → Option Json × List Watch) : Option Json × List (String × Json) × List Watch :=
  match m.lookup key with
  | some v => (some v, m, [])
  | none =>
    match (f ()).1 with
    | some j => (some j, (key, j) :: m, (f ()).2)
    | none => (none, m, (f ()).2)

/-- `Config.getJson`: the cached lookup of a file name (the default name
when the argument is empty), going through the per-key compute-once map
operation; it returns the document, the updated config and the watches
registered by the compute step. -/
def Config.getJson (c : Config) (env : Env) (file : String) : Option Json × Config × List Watch :=
  let name := if file = "" then c.defaultName else file
  let r := getOrSetFuncLock c.jsonMap name (fun _ => c.getJsonCompute env name)
  (r.1, { c with jsonMap := r.2.1 }, r.2.2)

/-- Firing a watch applies its callback, which in the source is exactly
`c.jsonMap.Remove(name)` for the captured name. -/
def Watch.fire (w : Watch) (c : Config) : Config :=
  { c with jsonMap := c.jsonMap.filter fun kv => kv.1 ≠ w.evictKey }

/-- A path-management operation, for stating invariants over arbitrary
operation sequences. -/
inductive PathOp where
  | add (path : String)
  | set (path : String)
deriving Repr, DecidableEq

/-- Applying a sequence of `AddPath`/`SetPath` operations. -/
def applyOps (env : Env) (c : Config) : List PathOp → Config
  | [] => c
  | PathOp.add p :: rest => applyOps env (c.AddPath env p).2 rest
  | PathOp.set p :: rest => applyOps env (c.SetPath env p).2 rest

/-- The search path set invariant: no duplicate and no empty entry. -/
def goodPaths (l : List String) : Prop :=
  l.Nodup ∧ "" ∉ l

instance (l : List String) : Decidable (goodPaths l) := by
  unfold goodPaths; infer_instance

/-- An all-absent environment, the base for the concrete scenarios. -/
def baseEnv : Env where
  resGet := fun _ => none
  resIsEmpty := true
  realPath := fun _ => ""
  isDirFs := fun _ => false
  spathSearch := fun _ _ => ""
  getContents := fun _ => ""
  existsFs := fun _ => false
  mainPkgPath := ""
  selfDir := ""
  pwd := ""
  inlineContent := fun _ => ""
  loadContentType := fun _ _ => none
  loadContent := fun _ => none
  watchOk := fun _ => false
  cmdOptFile := ""
  cmdOptPath := ""

example : trimRightSlashes "/a//" = "/a" := by decide

example : extName "config.toml" = "toml" := by decide

example : extName "config" = "" := by decide

/-- Helper: every outcome of `AddPath` either succeeds or leaves the
config untouched. -/
theorem AddPath_cases (c : Config) (env : Env) (path : String) :
    (c.AddPath env path).1 = none ∨ (c.AddPath env path).2 = c := by
  simp only [Config.AddPath]
  split
  · exact Or.inr rfl
  · split
    · exact Or.inr rfl
    · split
      · exact Or.inl rfl
      · exact Or.inl rfl

/-- Helper: every outcome of `SetPath` either succeeds or leaves the
config untouched. -/
theorem SetPath_cases (c : Config) (env : Env) (path : String) :
    (c.SetPath env path).1 = none ∨ (c.SetPath env path).2 = c := by
  simp only [Config.SetPath]
  split
  · exact Or.inr rfl
  · split
    · exact Or.inr rfl
    · split
      · exact Or.inl rfl
      · exact Or.inl rfl

/-- Helper: a failing `AddPath` leaves the config untouched. -/
theorem AddPath_err_eq (c : Config) (env : Env) (path : String)
    (h : (c.AddPath env path).1.isSome = true) : (c.AddPath env path).2 = c := by
  rcases AddPath_cases c env path with h1 | h1
  · rw [h1] at h; exact absurd h (by simp)
  · exact h1

/-- Helper: a failing `SetPath` leaves the config untouched. -/
theorem SetPath_err_eq (c : Config) (env : Env) (path : String)
    (h : (c.SetPath env path).1.isSome = true) : (c.SetPath env path).2 = c := by
  rcases SetPath_cases c env path with h1 | h1
  · rw [h1] at h; exact absurd h (by simp)
  · exact h1

/-- Helper: `AddPath` preserves the no-duplicate/no-empty invariant. -/
theorem AddPath_good (c : Config) (env : Env) (path : String)
    (h : goodPaths c.searchPaths) : goodPaths (c.AddPath env path).2.searchPaths := by
  simp only [Config.AddPath]
  split
  · exact h
  next h1 =>
    split
    · exact h
    · split
      · exact h
      next h3 =>
        obtain ⟨hn, he⟩ := h
        constructor
        · simp [List.nodup_append, hn, h3]
        · simp only [List.mem_append, List.mem_singleton]
          rintro (hc | hc)
          · exact he hc
          · exact h1 hc.symm

/-- Helper: `SetPath` preserves the no-duplicate/no-empty invariant. -/
theorem SetPath_good (c : Config) (env : Env) (path : String)
    (h : goodPaths c.searchPaths) : goodPaths (c.SetPath env path).2.searchPaths := by
  simp only [Config.SetPath]
  split
  · exact h
  next h1 =>
    split
    · exact h
    · split
      · exact h
      · constructor
        · simp
        · simp only [List.mem_singleton]
          intro hc
          exact h1 hc.symm

/-- Helper: a sequence of path operations preserves the invariant. -/
theorem applyOps_good (env : Env) (c : Config) (ops : List PathOp)
    (h : goodPaths c.searchPaths) : goodPaths (applyOps env c ops).searchPaths := by
  induction ops generalizing c with
  | nil => exact h
  | cons op rest ih =>
    cases op with
    | add p => exact ih _ (AddPath_good c env p h)
    | set p => exact ih _ (SetPath_good c env p h)

/-- Helper: the invariant holds for a freshly constructed config. -/
theorem New_good (env : Env) (file : String) : goodPaths (New env file).searchPaths := by
  have hbase : goodPaths (newBase env file).searchPaths := by
    constructor
    · exact List.nodup_nil
    · simp [newBase]
  simp only [New]
  split
  · split
    · exact SetPath_good _ env _ hbase
    · exact hbase
  · apply AddPath_good
    split
    · apply AddPath_good
      split
      · exact AddPath_good _ env _ hbase
      · exact hbase
    · split
      · exact AddPath_good _ env _ hbase
      · exact hbase

/-- Helper: after a successful `AddPath` the resolved directory is in
the search path set. -/
theorem AddPath_ok_mem (c : Config) (env : Env) (path : String)
    (h : (c.AddPath env path).1 = none) :
    (c.resolveDirPath env path).1 ∈ (c.AddPath env path).2.searchPaths := by
  by_cases h1 : (c.resolveDirPath env path).1 = ""
  · simp [Config.AddPath, h1] at h
  · by_cases h2 : (c.resolveDirPath env path).2 = false
    · simp [Config.AddPath, h1, h2] at h
    · by_cases h3 : (c.resolveDirPath env path).1 ∈ c.searchPaths
      · simp [Config.AddPath, h1, h2, h3]
      · simp [Config.AddPath, h1, h2, h3]

/-- Environment for the C1 counterexample: the filesystem has a single
directory `/a`. -/
def envC1 : Env :=
  { baseEnv with
    realPath := fun p => if p = "/a" then "/a" else ""
    isDirFs := fun p => p == "/a" }

/-- Config for the C1 counterexample: two search paths and one cached
document. -/
def cC1 : Config :=
  { defaultName := "config.toml"
    searchPaths := ["/a", "/b"]
    jsonMap := [("old", ⟨"x", false⟩)]
    violenceCheck := false }

/-- Claim C1 counterexample: `SetPath("/a")` on a config whose search
path set is `["/a", "/b"]` resolves `/a` to an existing directory and
returns success, yet the document cache is NOT cleared and the search
path set is NOT replaced by the single directory `/a` — the repeated
path check of the source returns early before any clearing happens. -/
theorem SetPath_repeated_keeps_cache :
    (cC1.SetPath envC1 "/a").1 = none ∧
    (cC1.SetPath envC1 "/a").2.jsonMap = [("old", ⟨"x", false⟩)] ∧
    (cC1.SetPath envC1 "/a").2.searchPaths = ["/a", "/b"] := by
  refine ⟨?_, ?_, ?_⟩ <;> decide

/-- Claim C1 (amended): when `SetPath(path)` resolves `path` to an
existing directory that is NOT already in the search path set, it
succeeds, clears the entire document cache and replaces the whole set
with that single resolved directory; when the resolved directory is
already in the set, `SetPath` returns success and leaves both the cache
and the set exactly as they were. -/
theorem SetPath_switch_root (env : Env) (c : Config) (path r : String)
    (h : c.resolveDirPath env path = (r, true)) (hr : r ≠ "") :
    (r ∈ c.searchPaths → c.SetPath env path = (none, c)) ∧
    (r ∉ c.searchPaths → c.SetPath env path = (none, { c with jsonMap := [], searchPaths := [r] })) := by
  constructor
  · intro hmem
    simp [Config.SetPath, h, hr, hmem]
  · intro hmem
    simp [Config.SetPath, h, hr, hmem]

/-- Witness for the amended C1 theorem at a concrete input: switching
the root of `cC1` to the fresh directory `/n` clears the cache and
replaces the set. -/
def envC1b : Env :=
  { baseEnv with
    realPath := fun p => if p = "/n" then "/n" else ""
    isDirFs := fun p => p == "/n" }

theorem SetPath_switch_root_witness :
    cC1.SetPath envC1b "/n" = (none, { cC1 with jsonMap := [], searchPaths := ["/n"] }) := by
  exact (SetPath_switch_root envC1b cC1 "/n" "/n" (by decide) (by decide)).2 (by decide)

/-- Claim C6: whenever `AddPath` or `SetPath` returns an error, the
whole config — in particular the search path set — is exactly as it was
before the call: no partial mutation occurs on failure. -/
theorem pathOps_no_partial_mutation (env : Env) (c : Config) (path : String) :
    ((c.AddPath env path).1.isSome = true → (c.AddPath env path).2 = c) ∧
    ((c.SetPath env path).1.isSome = true → (c.SetPath env path).2 = c) := by
  exact ⟨AddPath_err_eq c env path, SetPath_err_eq c env path⟩

/-- Witness for C6 at a concrete input: in the empty environment no
path resolves, both operations fail and the config is untouched. -/
theorem pathOps_no_partial_mutation_witness :
    ((cC1.AddPath baseEnv "/zzz").1.isSome = true ∧ (cC1.AddPath baseEnv "/zzz").2 = cC1) ∧
    ((cC1.SetPath baseEnv "/zzz").1.isSome = true ∧ (cC1.SetPath baseEnv "/zzz").2 = cC1) := by
  refine ⟨⟨by decide, ?_⟩, ⟨by decide, ?_⟩⟩
  · exact (pathOps_no_partial_mutation baseEnv cC1 "/zzz").1 (by decide)
  · exact (pathOps_no_partial_mutation baseEnv cC1 "/zzz").2 (by decide)

/-- Claim C9: the search path set never contains an empty or duplicate
entry — it is good after construction and stays good under any sequence
of `AddPath`/`SetPath` operations — and a second `AddPath` whose
argument resolves to an already-present directory is a success no-op,
leaving the set (hence its length) unchanged. -/
theorem searchPaths_nodup_nonempty :
    (∀ (env : Env) (file : String), goodPaths (New env file).searchPaths) ∧
    (∀ (env : Env) (c : Config) (ops : List PathOp),
      goodPaths c.searchPaths → goodPaths (applyOps env c ops).searchPaths) ∧
    (∀ (env : Env) (c : Config) (p p' : String), (c.AddPath env p).1 = none →
      (c.AddPath env p).2.resolveDirPath env p' = ((c.resolveDirPath env p).1, true) →
      (c.resolveDirPath env p).1 ≠ "" →
      (c.AddPath env p).2.AddPath env p' = (none, (c.AddPath env p).2)) := by
  refine ⟨New_good, fun env c ops h => applyOps_good env c ops h, ?_⟩
  intro env c p p' hok hres hne
  have hmem := AddPath_ok_mem c env p hok
  generalize hgen : (c.AddPath env p).2 = c1 at hres hmem ⊢
  simp [Config.AddPath, hres, hne, hmem]

/-- Witness for C9 at concrete inputs: adding `/a` twice to an empty
config yields the good set `["/a"]`, and the second call is a success
no-op. -/
def cW9 : Config := { defaultName := "config.toml", searchPaths := [], jsonMap := [], violenceCheck := false }

theorem searchPaths_nodup_nonempty_witness :
    goodPaths (applyOps envC1 cW9 [PathOp.add "/a", PathOp.add "/a"]).searchPaths ∧
    (cW9.AddPath envC1 "/a").2.AddPath envC1 "/a" = (none, (cW9.AddPath envC1 "/a").2) := by
  constructor
  · exact searchPaths_nodup_nonempty.2.1 envC1 cW9 _ (by decide)
  · exact searchPaths_nodup_nonempty.2.2 envC1 cW9 "/a" "/a" (by decide) (by decide) (by decide)

/-- Environment for the C2 counterexample: the main package directory
`/m` and the directories `/a` and `/b` all contain `f.toml`. -/
def envC2 : Env :=
  { baseEnv with
    mainPkgPath := "/m"
    spathSearch := fun d n =>
      if n == "f.toml" && (d == "/m" || d == "/a" || d == "/b") then d ++ "/f.toml" else "" }

/-- Config for the C2 counterexample: the search path set is `[/a, /b]`. -/
def cC2 : Config :=
  { defaultName := "config.toml", searchPaths := ["/a", "/b"], jsonMap := [], violenceCheck := false }

/-- Claim C2 counterexample: with search path set `["/a", "/b"]` and the
file present under both `/a` and `/b`, resolution does NOT return the
path under `/a`: `getSearchPaths` silently prepends the non-empty main
package directory `/m` (absent from the set), and the file found there
shadows the set's first entry. -/
theorem FilePath_mainPkg_shadows :
    envC2.spathSearch "/a" "f.toml" = "/a/f.toml" ∧
    envC2.spathSearch "/b" "f.toml" = "/b/f.toml" ∧
    cC2.FilePath envC2 "f.toml" = "/m/f.toml" ∧
    cC2.FilePath envC2 "f.toml" ≠ "/a/f.toml" := by
  refine ⟨by decide, by decide, by decide, by decide⟩

/-- Claim C2 (amended): for a search path set `[A, B]` with the file
present under both, resolution returns the path under `A` provided the
resource overlay is empty and the effective directory list equals the
set itself (that is, the main package directory is empty or already a
member — otherwise `getSearchPaths` prepends it and it can shadow `A`). -/
theorem FilePath_first_dir_wins (env : Env) (c : Config) (A B name pA : String)
    (hset : c.searchPaths = [A, B])
    (hmain : c.getSearchPaths env = c.searchPaths)
    (hres : env.resIsEmpty = true)
    (hA : env.spathSearch (trimRightSlashes A) name = pA)
    (hpA : pA ≠ "") :
    c.FilePath env name = pA := by
  simp only [Config.FilePath, hmain, hset, hres, if_true]
  simp [List.findSome?, strOpt, hA, hpA]

/-- Environment for the C2 witness: same two directories, no main
package directory. -/
def envC2b : Env :=
  { baseEnv with
    spathSearch := fun d n =>
      if n == "f.toml" && (d == "/a" || d == "/b") then d ++ "/f.toml" else "" }

theorem FilePath_first_dir_wins_witness :
    cC2.FilePath envC2b "f.toml" = "/a/f.toml" := by
  exact FilePath_first_dir_wins envC2b cC2 "/a" "/b" "f.toml" "/a/f.toml"
    (by decide) (by decide) (by decide) (by decide) (by decide)

/-- Phase one of the claimed resolution order: probing the overlay with
the conventional prefixes concatenated with the bare name. -/
def overlayBareProbe (env : Env) (name : String) : Option String :=
  resourceTryFiles.findSome? fun v => (env.resGet (v ++ name)).map ResFile.fname

/-- Phase two of the claimed resolution order: the same prefix probing
with each search directory prepended. -/
def overlayDirProbe (env : Env) (dirs : List String) (name : String) : Option String :=
  dirs.findSome? fun d =>
    resourceTryFiles.findSome? fun v => (env.resGet (d ++ v ++ name)).map ResFile.fname

/-- Phase three of the claimed resolution order: the real filesystem,
per directory with trailing separators trimmed, first directly in the
directory and then in its `config` subdirectory. -/
def fsSearch (env : Env) (dirs : List String) (name : String) : Option String :=
  dirs.findSome? fun d =>
    (strOpt (env.spathSearch (trimRightSlashes d) name)).orElse
      fun _ => strOpt (env.spathSearch (trimRightSlashes d ++ separator ++ "config") name)

/-- Formulation of claim C5, written from the specification text: with a
non-empty overlay probe it first on the bare name, then per directory,
first hit wins; only on overlay miss search the real filesystem; a miss
everywhere is the empty string (a normal negative result). -/
def filePathSpec (env : Env) (c : Config) (name : String) : String :=
  let dirs := c.getSearchPaths env
  let overlayHit : Option String :=
    if env.resIsEmpty then none
    else (overlayBareProbe env name).orElse fun _ => overlayDirProbe env dirs name
  (overlayHit.orElse fun _ => fsSearch env dirs name).getD ""

/-- Claim C5: `FilePath` resolves in exactly the claimed order — overlay
prefixes on the bare name, overlay prefixes per search directory, then
the filesystem per directory (trimmed, direct then `config`
subdirectory), with a miss yielding the empty string.  Resolution is a
pure function of the config: by construction it can mutate neither the
search path set nor the cache. -/
theorem FilePath_resolution_order (env : Env) (c : Config) (name : String) :
    c.FilePath env name = filePathSpec env c name := by
  have hfs : ((c.getSearchPaths env).findSome? fun dir =>
      let dir2 := trimRightSlashes dir
      match strOpt (env.spathSearch dir2 name) with
      | some p => some p
      | none => strOpt (env.spathSearch (dir2 ++ separator ++ "config") name))
      = fsSearch env (c.getSearchPaths env) name := by
    unfold fsSearch
    congr 1
    funext d
    dsimp only
    cases strOpt (env.spathSearch (trimRightSlashes d) name) <;> rfl
  have h1 : (resourceTryFiles.findSome? fun v => (env.resGet (v ++ name)).map ResFile.fname)
      = overlayBareProbe env name := rfl
  have h2 : ((c.getSearchPaths env).findSome? fun dir =>
      resourceTryFiles.findSome? fun v => (env.resGet (dir ++ v ++ name)).map ResFile.fname)
      = overlayDirProbe env (c.getSearchPaths env) name := rfl
  show
    (match
      (if env.resIsEmpty then none
       else
        match resourceTryFiles.findSome? fun v => (env.resGet (v ++ name)).map ResFile.fname with
        | some p => some p
        | none =>
          (c.getSearchPaths env).findSome? fun dir =>
            resourceTryFiles.findSome? fun v => (env.resGet (dir ++ v ++ name)).map ResFile.fname) with
    | some p => p
    | none =>
      ((c.getSearchPaths env).findSome? fun dir =>
        let dir2 := trimRightSlashes dir
        match strOpt (env.spathSearch dir2 name) with
        | some p => some p
        | none => strOpt (env.spathSearch (dir2 ++ separator ++ "config") name)).getD "") =
    ((if env.resIsEmpty then none
      else (overlayBareProbe env name).orElse fun _ =>
        overlayDirProbe env (c.getSearchPaths env) name).orElse fun _ =>
          fsSearch env (c.getSearchPaths env) name).getD ""
  rw [hfs, h1, h2]
  by_cases hemp : env.resIsEmpty = true
  · simp [hemp]
  · simp only [hemp, if_false]
    cases overlayBareProbe env name <;>
      cases overlayDirProbe env (c.getSearchPaths env) name <;>
        cases fsSearch env (c.getSearchPaths env) name <;> rfl

/-- Claim C4: a failed first access (name unresolvable or parser
rejects) stores nothing — the config, in particular the document cache,
is unchanged — and a subsequent access re-runs resolution and parsing
from scratch, so that it succeeds once the environment yields a
document. -/
theorem getJson_failure_not_cached (env env2 : Env) (c : Config) (file : String) (j : Json)
    (h1 : (c.getJson env file).1 = none)
    (h2 : (c.getJsonCompute env2 (if file = "" then c.defaultName else file)).1 = some j) :
    (c.getJson env file).2.1 = c ∧
    ((c.getJson env file).2.1.getJson env2 file).1 = some j := by
  have hl : c.jsonMap.lookup (if file = "" then c.defaultName else file) = none := by
    cases hl0 : c.jsonMap.lookup (if file = "" then c.defaultName else file) with
    | none => rfl
    | some v => simp [Config.getJson, getOrSetFuncLock, hl0] at h1
  have hc : (c.getJsonCompute env (if file = "" then c.defaultName else file)).1 = none := by
    cases hc0 : (c.getJsonCompute env (if file = "" then c.defaultName else file)).1 with
    | none => rfl
    | some jj => simp [Config.getJson, getOrSetFuncLock, hl, hc0] at h1
  have hstate : (c.getJson env file).2.1 = c := by
    simp only [Config.getJson, getOrSetFuncLock, hl, hc]
  refine ⟨hstate, ?_⟩
  rw [hstate]
  simp only [Config.getJson, getOrSetFuncLock, hl, h2]

/-- Environment for the C4 witness: inline content that the generic
parser rejects. -/
def envC4 : Env :=
  { baseEnv with inlineContent := fun n => if n == "a.json" then "bad" else "" }

/-- Environment for the second C4 access: the content was fixed and the
generic parser now accepts it. -/
def envC4b : Env :=
  { envC4 with loadContent := fun s => some ⟨s, false⟩ }

theorem getJson_failure_not_cached_witness :
    (cW9.getJson envC4 "a.json").2.1 = cW9 ∧
    ((cW9.getJson envC4 "a.json").2.1.getJson envC4b "a.json").1 = some ⟨"bad", false⟩ := by
  exact getJson_failure_not_cached envC4 envC4b cW9 "a.json" ⟨"bad", false⟩ (by decide) (by decide)

/-- Claim C7: after a successful parse of a real filesystem file (no
inline content, resolved path not in the overlay) the compute step
registers exactly one watch, on the resolved path, whose callback evicts
exactly this file name's entry from the cache; the outcome of the
registration (`env.watchOk` may be `false`) has no effect on the result:
the document is still returned and cached. -/
theorem getJson_watch_registration (env : Env) (c : Config) (name : String) (j : Json)
    (hn : name ≠ "")
    (h1 : env.inlineContent name = "")
    (h2 : c.FilePath env name ≠ "")
    (h3 : env.resGet (c.FilePath env name) = none)
    (h4 : parseStep env name (env.getContents (c.FilePath env name)) false = some j)
    (h5 : c.jsonMap.lookup name = none) :
    c.getJsonCompute env name =
      (some { j with violenceCheck := c.violenceCheck },
       [⟨c.FilePath env name, name, env.watchOk (c.FilePath env name)⟩]) ∧
    (∀ c2 : Config, (Watch.mk (c.FilePath env name) name (env.watchOk (c.FilePath env name))).fire c2
      = { c2 with jsonMap := c2.jsonMap.filter fun kv => kv.1 ≠ name }) ∧
    (c.getJson env name).1 = some { j with violenceCheck := c.violenceCheck } ∧
    (c.getJson env name).2.1.jsonMap.lookup name = some { j with violenceCheck := c.violenceCheck } := by
  have hcompute : c.getJsonCompute env name =
      (some { j with violenceCheck := c.violenceCheck },
       [⟨c.FilePath env name, name, env.watchOk (c.FilePath env name)⟩]) := by
    simp [Config.getJsonCompute, h1, h2, h3, h4, Env.resContains]
  refine ⟨hcompute, fun c2 => rfl, ?_, ?_⟩
  · simp only [Config.getJson, getOrSetFuncLock, hn, if_false, h5, hcompute]
  · simp only [Config.getJson, getOrSetFuncLock, hn, if_false, h5, hcompute]
    simp [List.lookup]

/-- Environment for the C7 witness: `/a/app.json` exists on disk, parses
fine, and watch registration FAILS (`watchOk` is everywhere false). -/
def envC7 : Env :=
  { baseEnv with
    spathSearch := fun d n => if d == "/a" && n == "app.json" then "/a/app.json" else ""
    getContents := fun p => if p == "/a/app.json" then "CONT" else ""
    loadContentType := fun _ s => some ⟨s, true⟩ }

/-- Config for the C7 witness. -/
def cC7 : Config :=
  { defaultName := "config.toml", searchPaths := ["/a"], jsonMap := [], violenceCheck := false }

theorem getJson_watch_registration_witness :
    cC7.getJsonCompute envC7 "app.json" =
      (some ⟨"CONT", false⟩, [⟨"/a/app.json", "app.json", false⟩]) ∧
    (cC7.getJson envC7 "app.json").1 = some ⟨"CONT", false⟩ := by
  have h := getJson_watch_registration envC7 cC7 "app.json" ⟨"CONT", true⟩
    (by decide) (by decide) (by decide) (by decide) (by decide) (by decide)
  exact ⟨h.1, h.2.2.1⟩

/-- Claim C8: the parse dispatch — a name whose extension is in the
fixed supported set gets the parser selected by that extension, while an
unrecognized extension or inline-supplied content goes to the generic
content-sniffing parser; the compute step feeds inline content to the
dispatch flagged as inline. -/
theorem parse_format_dispatch (env : Env) (c : Config) (name content : String) :
    (extName name ∈ supportedFileTypes →
      parseStep env name content false = env.loadContentType (extName name) content) ∧
    (extName name ∉ supportedFileTypes →
      parseStep env name content false = env.loadContent content) ∧
    (parseStep env name content true = env.loadContent content) ∧
    (env.inlineContent name ≠ "" →
      (c.getJsonCompute env name).1 =
        (parseStep env name (env.inlineContent name) true).map
          fun j => { j with violenceCheck := c.violenceCheck }) := by
  refine ⟨?_, ?_, ?_, ?_⟩
  · intro hmem
    simp [parseStep, isValidDataType, hmem]
  · intro hmem
    simp [parseStep, isValidDataType, hmem]
  · simp [parseStep]
  · intro hinl
    simp only [Config.getJsonCompute, hinl, if_false]
    cases parseStep env name (env.inlineContent name) true <;> simp [hinl]

/-- Environment for the C8 witness: inline content registered under one
name. -/
def envC8 : Env :=
  { baseEnv with inlineContent := fun n => if n == "a.toml" then "inline" else "" }

theorem parse_format_dispatch_witness :
    parseStep baseEnv "a.toml" "x" false = baseEnv.loadContentType "toml" "x" ∧
    parseStep baseEnv "a.conf" "x" false = baseEnv.loadContent "x" ∧
    (cW9.getJsonCompute envC8 "a.toml").1 =
      (parseStep envC8 "a.toml" (envC8.inlineContent "a.toml") true).map
        fun j => { j with violenceCheck := cW9.violenceCheck } := by
  refine ⟨?_, ?_, ?_⟩
  · exact (parse_format_dispatch baseEnv cW9 "a.toml" "x").1 (by decide)
  · exact (parse_format_dispatch baseEnv cW9 "a.conf" "x").2.1 (by decide)
  · exact (parse_format_dispatch envC8 cW9 "a.toml" "x").2.2.2 (by decide)

/-- Environment for the C10 counterexample: a custom root path is
supplied but does not exist, while the working directory `/w` exists and
is a usable directory. -/
def envC10 : Env :=
  { baseEnv with
    cmdOptPath := "/missing"
    pwd := "/w"
    realPath := fun p => if p = "/w" then "/w" else ""
    isDirFs := fun p => p == "/w"
    existsFs := fun p => p == "/w" }

/-- Claim C10 counterexample: when the supplied custom root path does
not exist, `New` does NOT fall back to default path discovery either —
the search path set comes out empty — although the identical environment
without the custom path would discover the working directory.  Default
discovery runs only when no custom path is supplied at all. -/
theorem New_no_fallback_on_missing_custom_path :
    envC10.cmdOptPath ≠ "" ∧
    envC10.existsFs envC10.cmdOptPath = false ∧
    (New envC10 "").searchPaths = [] ∧
    (New { envC10 with cmdOptPath := "" } "").searchPaths = ["/w"] := by
  refine ⟨by decide, by decide, by decide, by decide⟩

/-- Claim C10 (amended): whenever the custom root path option is
supplied, the default discovery rules never run: when the path exists,
`New` is exactly `SetPath` on the fresh config with the error silently
discarded, so a failing `SetPath` (existing entry, not a usable
directory) leaves the search path set empty; when the path does not
exist, only an error is logged and the config stays fresh with an empty
search path set as well. -/
theorem New_custom_path (env : Env) (file : String) (h : env.cmdOptPath ≠ "") :
    (env.existsFs env.cmdOptPath = true →
      New env file = ((newBase env file).SetPath env env.cmdOptPath).2) ∧
    (env.existsFs env.cmdOptPath = true →
      ((newBase env file).SetPath env env.cmdOptPath).1.isSome = true →
      (New env file).searchPaths = []) ∧
    (env.existsFs env.cmdOptPath = false → New env file = newBase env file) := by
  refine ⟨?_, ?_, ?_⟩
  · intro hex
    simp [New, h, hex]
  · intro hex herr
    have hN : New env file = ((newBase env file).SetPath env env.cmdOptPath).2 := by
      simp [New, h, hex]
    rw [hN, SetPath_err_eq (newBase env file) env env.cmdOptPath herr]
    rfl
  · intro hex
    simp [New, h, hex]

/-- Environment for the C10 witness: the custom root path `/f` exists
but is a plain file, so `SetPath` fails; its error is discarded and no
discovery runs. -/
def envC10b : Env :=
  { baseEnv with
    cmdOptPath := "/f"
    pwd := "/w"
    realPath := fun p => if p = "/f" then "/f" else if p = "/w" then "/w" else ""
    isDirFs := fun p => p == "/w"
    existsFs := fun p => p == "/f" || p == "/w" }

theorem New_custom_path_witness :
    (New envC10b "").searchPaths = [] ∧ (New envC10 "").searchPaths = [] := by
  constructor
  · exact (New_custom_path envC10b "" (by decide)).2.1 (by decide) (by decide)
  · rw [(New_custom_path envC10 "" (by decide)).2.2 (by decide)]
    decide
